import Mathlib

/-!
Verification of the RunPack laboratory-automation package (FordyceLab/RunPack)
against its natural-language specification.

The Python sources (`runpack/io.py`, `runpack/assays.py`,
`runpack/imagingcontrol.py`, `runpack/mitomiprotocols.py`,
`taskscheduler.py`) are shallowly embedded below.  Pure computations become
Lean functions; Python exceptions (`KeyError`, `NameError`, `ValueError`,
`IndexError`, `IOError`) become an explicit error type threaded through
`Except`.  A reference to a Python name that is unbound in the enclosing
scope is modelled as a lookup in an (empty) local environment, producing the
`NameError` that CPython raises at that statement.
-/

/-- The Python exceptions raised by the embedded RunPack code. -/
inductive PyErr : Type
  | nameError (name : String)
  | keyError (key : String)
  | valueError (msg : String)
  | indexError
  | ioError (msg : String)
  deriving Repr, DecidableEq

/-- Python local-variable lookup.  `pyLookup locals v` models reading the
name `v` in a function body whose bound locals are `locals`; reading a name
that is not bound raises `NameError`, exactly as CPython does. -/
def pyLookup (locals : List (String × Int)) (v : String) : Except PyErr Int :=
  match locals.lookup v with
  | some n => Except.ok n
  | none => Except.error (PyErr.nameError v)

/-- Python `d[k]` on a dict modelled as an association list: raises
`KeyError k` when the key is absent. -/
def pyDictGet (d : List (String × List Int)) (k : String) : Except PyErr (List Int) :=
  match d.lookup k with
  | some v => Except.ok v
  | none => Except.error (PyErr.keyError k)

/-- Sequential `dict.pop` over an association list (`KeyError` when the key
is absent), as performed by `map(ExperimentalHarness.assayTimes.pop, keys)`
in `io.py`. -/
def popAssayTimes (table : List (String × List Int)) :
    List String → Except PyErr (List (String × List Int))
  | [] => Except.ok table
  | k :: ks =>
    if (table.map Prod.fst).contains k then
      popAssayTimes (table.filter (fun p => p.fst ≠ k)) ks
    else
      Except.error (PyErr.keyError k)

/-- `ExperimentalHarness.removeAssayTimings` (io.py lines 173-190).
The `try` block pops each requested key; a missing key raises `KeyError`,
which the `except KeyError as e:` handler catches.  The handler then builds
`errornote` but executes `raise warnings.warn(note)`: the name `note` is not
bound in the method body, so the handler itself raises `NameError("note")`,
which propagates to the caller. -/
def removeAssayTimings (assayTimes : List (String × List Int))
    (assayTimesKeys : List String) : Except PyErr (List (String × List Int)) :=
  match popAssayTimes assayTimes assayTimesKeys with
  | Except.ok t => Except.ok t
  | Except.error (PyErr.keyError e) =>
    -- handler body: errornote = 'Time list not present: {}'.format(e.args[0])
    -- followed by `raise warnings.warn(note)` where `note` is unbound
    match pyLookup [] "note" with
    | Except.ok _ => Except.error (PyErr.keyError e)
    | Except.error err => Except.error err
  | Except.error e => Except.error e

/-- Python's `needle in haystack` substring test on strings: the needle's
character list occurs contiguously in the haystack's character list. -/
def strContainsSub (haystack needle : String) : Bool :=
  (List.range (haystack.toList.length + 1)).any
    (fun i => needle.toList.isPrefixOf (haystack.toList.drop i))

/-- `TemperatureProbe.load` (io.py lines 512-527), with the enumerated VISA
resource descriptions, and the success/failure of `open_resource`, made
explicit.  The loop keeps scanning after a successful open, so `inst` ends
as the last matching resource; a matching resource whose open raises is
turned into `IOError`; a pass with no matching resource simply returns with
`inst` untouched (`none`). -/
def probeLoadGo (vid pid : String) (canOpen : String → Bool) :
    List String → Option String → Except PyErr (Option String)
  | [], inst => Except.ok inst
  | device :: rest, inst =>
    if strContainsSub device vid && strContainsSub device pid then
      if canOpen device then
        probeLoadGo vid pid canOpen rest (some device)
      else
        Except.error (PyErr.ioError "Connection to probe could not be established")
    else
      probeLoadGo vid pid canOpen rest inst

/-- `TemperatureProbe.load`: iterate `probeLoadGo` over `listVISAResources()`
starting from an unset `self.inst`. -/
def probeLoad (resources : List String) (vid pid : String)
    (canOpen : String → Bool) : Except PyErr (Option String) :=
  probeLoadGo vid pid canOpen resources none

/-- Whether a resource description matches the configured probe: both the
vendor id and the product id occur in the description string. -/
def probeMatches (vid pid device : String) : Bool :=
  strContainsSub device vid && strContainsSub device pid

/-- The last resource in the enumeration order whose description matches
the configured vendor and product identifiers. -/
def lastMatchingResource (resources : List String) (vid pid : String) : Option String :=
  (resources.filter (probeMatches vid pid)).getLast?

/-- The hardware categories that `HardwareInterface.initializeHardware`
can bring up. -/
inductive HardwareUnit : Type
  | manifold
  | microscope
  | temperature
  deriving Repr, DecidableEq

/-- `HardwareInterface.initializeHardware` (io.py lines 267-294), embedded
from the source `if/elif` chain.  The result is the ordered list of device
categories initialized together with the warnings emitted; an unrecognized
subset raises `ValueError`. -/
def initializeHardware (subset : Option String) :
    Except PyErr (List HardwareUnit × List String) :=
  if subset = some "all" then
    Except.ok ([HardwareUnit.manifold, HardwareUnit.microscope, HardwareUnit.temperature], [])
  else if subset = some "manifold" then
    Except.ok ([HardwareUnit.manifold], [])
  else if subset = some "microscope" then
    Except.ok ([HardwareUnit.microscope], [])
  else if subset = some "temperature" then
    Except.ok ([HardwareUnit.temperature], [])
  else if subset = none then
    Except.ok ([], ["No hardware was selected to initialize"])
  else
    Except.error (PyErr.valueError "The requested hardware initialization failed. Specify a valid subset.")

/-- The spec's description of `initializeHardware` as a total case split:
a table from recognized subset names to the device categories they bring
up, an absent value warning and initializing nothing, and every other
value an invalid-argument error. -/
def initializeHardwareSpec (subset : Option String) :
    Except PyErr (List HardwareUnit × List String) :=
  match subset with
  | none => Except.ok ([], ["No hardware was selected to initialize"])
  | some s =>
    match [("all", [HardwareUnit.manifold, HardwareUnit.microscope, HardwareUnit.temperature]),
           ("manifold", [HardwareUnit.manifold]),
           ("microscope", [HardwareUnit.microscope]),
           ("temperature", [HardwareUnit.temperature])].lookup s with
    | some units => Except.ok (units, [])
    | none => Except.error (PyErr.valueError "The requested hardware initialization failed. Specify a valid subset.")

/-- One entry of a MicroManager stage position list (`pd.DataFrame` rows
with `name`, `x`, `y` and optionally `z`). -/
structure Position : Type where
  name : String
  x : Int
  y : Int
  z : Option Int := none
  deriving Repr, DecidableEq

/-- One row of the imaging record appended per acquired frame by `scan`,
restricted to the fields the specification talks about.  `exifExposureTime`
is the value written to TIFF EXIF tag 33434: the exposure (ms) divided by
1000.0. -/
structure ScanRow : Type where
  channel : String
  exposure_ms : Int
  exifExposureTime : Rat
  imagePath : String
  deriving Repr, DecidableEq

/-- `move_stage_poslist` (runpack/imagingcontrol.py lines 114-136).  Its
first statement, `x,y = position_list[['x','y']].iloc[i]`, reads the name
`i`, which is bound nowhere in the function (the parameter is named
`poslistIndex`), so CPython raises `NameError('i')` before any stage
motion. -/
def move_stage_poslist (position_list : List Position) (poslistIndex : Nat)
    (zControl : Bool) : Except PyErr Unit := do
  let i ← pyLookup [] "i"
  match position_list.get? i.toNat with
  | some _ => Except.ok ()
  | none => Except.error PyErr.indexError

/-- One frame of `scan`'s innermost exposure loop (imagingcontrol.py lines
214-245).  `frameInfo` (line 228) interpolates `x` and `y`, which are
locals of `move_stage_poslist`, not of `scan`; reading them raises
`NameError('x')` before the record row is appended or the image saved. -/
def scanFrame (i : Nat) (positionname channel : String) (exposure : Int) :
    Except PyErr ScanRow := do
  let _x ← pyLookup [] "x"
  let _y ← pyLookup [] "y"
  Except.ok { channel := channel
              exposure_ms := exposure
              exifExposureTime := (exposure : Rat) / 1000
              imagePath := positionname ++ "_" ++ toString exposure ++ ".tif" }

/-- `scan`'s loop over the exposures of one channel. -/
def scanExposures (i : Nat) (positionname channel : String) :
    List Int → Except PyErr (List ScanRow)
  | [] => Except.ok []
  | exposure :: rest => do
    let row ← scanFrame i positionname channel exposure
    let rows ← scanExposures i positionname channel rest
    Except.ok (row :: rows)

/-- `scan`'s loop over `channelsExposures.keys()` at one stage position. -/
def scanChannels (i : Nat) (positionname : String) :
    List (String × List Int) → Except PyErr (List ScanRow)
  | [] => Except.ok []
  | (channel, exposures) :: rest => do
    let rows ← scanExposures i positionname channel exposures
    let more ← scanChannels i positionname rest
    Except.ok (rows ++ more)

/-- `scan`'s raster loop, `for i in xrange(len(position_list))`: each pass
first calls `move_stage_poslist(position_list, i, zControl)`. -/
def scanPositionsGo (position_list : List Position)
    (channelsExposures : List (String × List Int)) (zControl : Bool) :
    Nat → Nat → Except PyErr (List ScanRow)
  | _i, 0 => Except.ok []
  | i, remaining + 1 => do
    move_stage_poslist position_list i zControl
    let positionname := ((position_list.get? i).map Position.name).getD ""
    let rows ← scanChannels i positionname channelsExposures
    let rest ← scanPositionsGo position_list channelsExposures zControl (i + 1) remaining
    Except.ok (rows ++ rest)

/-- `scan` (runpack/imagingcontrol.py lines 153-264): raster over the
position list accumulating the imaging record, then
`home_stage(position_list, zControl)`, which is
`move_stage_poslist(position_list, 0, zControl)`. -/
def scan (position_list : List Position)
    (channelsExposures : List (String × List Int)) (zControl : Bool) :
    Except PyErr (List ScanRow) := do
  let rows ← scanPositionsGo position_list channelsExposures zControl 0 position_list.length
  move_stage_poslist position_list 0 zControl
  Except.ok rows

/-- `AssaySeries.scheduleAssays` (runpack/assays.py lines 119-132): the
assays are put into a FIFO queue in construction-list order. -/
def scheduleAssays {α : Type} (assayList : List α) : List α :=
  assayList

/-- The no-offsets branch of `AssaySeries.startAssays`: dequeue and start
every assay back-to-back; the started order is the queue order. -/
def drainQueue {α : Type} : List α → List α
  | [] => []
  | a :: queue => a :: drainQueue queue

/-- One pass of the `for offset in self.offsets` loop inside
`AssaySeries.startAssays`: per offset, sleep then `Queue.get()` and start
the next assay.  `Queue.get()` on an empty queue blocks forever
(modelled as `none`). -/
def startOffsetsPass {α : Type} : List Int → List α → List α → Option (List α × List α)
  | [], queue, acc => some (queue, acc)
  | _offset :: _os, [], _acc => none
  | _offset :: os, a :: queue, acc => startOffsetsPass os queue (acc ++ [a])

/-- The `while not self.assayQueue.empty()` loop of the offsets branch of
`startAssays`, with fuel bounding the number of `while` iterations. -/
def startAssaysOffsetsLoop {α : Type} (offsets : List Int) :
    Nat → List α → List α → Option (List α)
  | 0, _, _ => none
  | fuel + 1, queue, acc =>
    if queue.isEmpty then some acc
    else
      match startOffsetsPass offsets queue acc with
      | none => none
      | some (queue', acc') => startAssaysOffsetsLoop offsets fuel queue' acc'

/-- `AssaySeries.startAssays` (runpack/assays.py lines 134-155).  Returns
`some (startedAssays, newHardwareState)` when the call completes, `none`
when it blocks forever (a `Queue.get()` on a drained queue).  On
completion the module-level `hardwareState` has been incremented once
(`imaging.hardwareState += 1`, line 155).  Python's `if not self.offsets`
treats both `None` and `[]` as "no offsets". -/
def startAssays {α : Type} (assayList : List α) (offsets : Option (List Int))
    (hardwareState : Int) : Option (List α × Int) :=
  match offsets with
  | none => some (drainQueue assayList, hardwareState + 1)
  | some [] => some (drainQueue assayList, hardwareState + 1)
  | some (o :: os) =>
    match startAssaysOffsetsLoop (o :: os) (assayList.length + 1) assayList [] with
    | none => none
    | some started => some (started, hardwareState + 1)

/-- The experimental-harness state consulted by `Assay` construction: the
device names with registered position lists, and the assay-timing table. -/
structure HarnessState : Type where
  posLists : List String
  assayTimes : List (String × List Int)

/-- Python `s[-1]` on a string: the last character, or `IndexError` on the
empty string. -/
def strLastChar (s : String) : Except PyErr Char :=
  match s.toList.getLast? with
  | some c => Except.ok c
  | none => Except.error PyErr.indexError

/-- `Assay.testParams` (runpack/assays.py lines 75-97): the four parameter
validations, in source order, each raising `ValueError`. -/
def testParams (hwChannels : List String) (h : HarnessState)
    (dname inletPort : String) (channelsExposures : List (String × List Int))
    (assayTimesName : String) : Except PyErr Unit := do
  if h.posLists.contains dname = false then
    Except.error (PyErr.valueError "Device name incorrect or not added to experimental object")
  else do
    let portChar ← strLastChar inletPort
    let devChar ← strLastChar dname
    if portChar ≠ devChar then
      Except.error (PyErr.valueError "Your inlet port either lacks a trailing digit or is for another device")
    else
      match channelsExposures.find? (fun p => !(hwChannels.contains p.fst)) with
      | some p =>
        Except.error (PyErr.valueError ("Channel " ++ p.fst ++ " does not exist for hardware"))
      | none =>
        if (h.assayTimes.map Prod.fst).contains assayTimesName = false then
          Except.error (PyErr.valueError "The AssayTimes name specified does not exist in experimental object. Check your spelling.")
        else
          Except.ok ()

/-- `Assay.__init__` (runpack/assays.py lines 22-58).  Before `testParams`
runs, line 56-57 builds the `KineticAcquisition` from
`experimentalObject.assayTimes[assayTimesName]`: an absent timing-table
name therefore raises `KeyError` here, never reaching the validation. -/
def assayInit (hwChannels : List String) (h : HarnessState)
    (dname inletPort : String) (channelsExposures : List (String × List Int))
    (assayTimesName : String) : Except PyErr Unit := do
  let _delayTimes ← pyDictGet h.assayTimes assayTimesName
  testParams hwChannels h dname inletPort channelsExposures assayTimesName

/-- Whether a raised error is the parameter-validation error
(`ValueError`) that the specification describes. -/
def isValidationError : PyErr → Bool
  | PyErr.valueError _ => true
  | _ => false

/-- `baseTimes` as assembled in one pass of `makeAssayTimings`' density
loop (mitomiprotocols.py lines 668-675): `[scanTime] * numLinearPoints`
extended with the log-spaced timings.  The `np.logspace` expression
(`np.logspace(np.log10(scanTime), np.log10(float(scanTime)**pointDensity),
num=logPoints, dtype=int)`) is a float64 computation; it is abstracted as
the function `logTimings`, where `logTimings k` is the integer list the
expression yields at `pointDensity = 1 + 0.002 * k` (after `k` increments
of `pointDenistyIncremener`). -/
def baseTimesAt (logTimings : Int → List Int) (numLinearPoints : Nat)
    (scanTime : Int) (k : Int) : List Int :=
  List.replicate numLinearPoints scanTime ++ logTimings k

/-- The `while sum(baseTimes) < totalTime` loop of `makeAssayTimings`:
each pass increments the density (`k`) and rebuilds `baseTimes` at the new
density.  Returns the density index at loop exit; `none` when the fuel
runs out before the sum reaches `totalTime`. -/
def makeAssayTimingsLoop (logTimings : Int → List Int) (numLinearPoints : Nat)
    (scanTime totalTime : Int) : Nat → Int → List Int → Option Int
  | 0, _, _ => none
  | fuel + 1, k, baseTimes =>
    if baseTimes.sum < totalTime then
      makeAssayTimingsLoop logTimings numLinearPoints scanTime totalTime fuel
        (k + 1) (baseTimesAt logTimings numLinearPoints scanTime (k + 1))
    else
      some k

/-- `makeAssayTimings` (mitomiprotocols.py lines 658-683).  After the loop
exits at density index `k`, the function rebuilds and returns `baseTimes`
at `pointDensity - pointDenistyIncremener`, i.e. at density index
`k - 1`. -/
def makeAssayTimings (logTimings : Int → List Int) (numLinearPoints : Nat)
    (scanTime totalTime : Int) (fuel : Nat) : Option (List Int) :=
  (makeAssayTimingsLoop logTimings numLinearPoints scanTime totalTime fuel 0 []).map
    (fun k => baseTimesAt logTimings numLinearPoints scanTime (k - 1))

/-- The eight named input lines of the inlet tree
(mitomiprotocols.py line 693). -/
def allInputs : List String :=
  ["hep", "prot", "ext2", "ext1", "ph", "na", "bb", "w"]

/-- `indexesInputs[inlet]`: the index of an input line in
`dict(zip(allInputs, range(len(allInputs))))`; `KeyError` when the inlet
is not one of the eight named lines. -/
def inputIndexLookup (inlet : String) : Except PyErr Int :=
  if allInputs.contains inlet then
    Except.ok (allInputs.findIdx (fun s => s == inlet) : Int)
  else
    Except.error (PyErr.keyError inlet)

/-- Python dict assignment `m[k] = v`: replaces the value at an existing
key, otherwise appends the binding. -/
def dictInsert (m : List (Nat × String)) (k : Nat) (v : String) : List (Nat × String) :=
  if (m.map Prod.fst).contains k then
    m.map (fun p => if p.fst = k then (k, v) else p)
  else
    m ++ [(k, v)]

/-- The `for inlet in vacantInlets` loop building `vacantInletsOrganized`
(mitomiprotocols.py lines 702-704): each vacant inlet is stored under its
index-distance from the active input, a later inlet overwriting an earlier
one at the same distance. -/
def buildVacantDict (inputIndex : Int) :
    List String → List (Nat × String) → Except PyErr (List (Nat × String))
  | [], m => Except.ok m
  | inlet :: rest, m => do
    let idx ← inputIndexLookup inlet
    buildVacantDict inputIndex rest (dictInsert m (idx - inputIndex).natAbs inlet)

/-- A valve-control action performed by `flushInletTree`, at the
granularity of its `vc.openValves` / `vc.closeValves` / `time.sleep`
calls. -/
inductive ValveEvent : Type
  | openV (valves : List String)
  | closeV (valves : List String)
  | sleep (t : Int)
  deriving Repr, DecidableEq

/-- The `for inlet in sorted(vacantInletsOrganized.keys())` iteration:
each distance key, in ascending order, paired with the inlet stored under
it. -/
def flushPairs (m : List (Nat × String)) : List (Nat × String) :=
  (List.insertionSort (· ≤ ·) (m.map Prod.fst)).filterMap
    (fun d => (m.lookup d).map (fun v => (d, v)))

/-- The index-distance of an inlet from the active input, both named by
their position in `allInputs` (total version used to state properties;
inside `flushInletTree` the lookups go through `inputIndexLookup`). -/
def inletDist (inputInlet inlet : String) : Nat :=
  ((allInputs.findIdx (fun s => s == inlet) : Int) -
    (allInputs.findIdx (fun s => s == inputInlet) : Int)).natAbs

/-- `flushInletTree` (mitomiprotocols.py lines 686-714) as the sequence of
valve-control events it performs: close all eight inputs and the tree
inlet, open the active input, then for each stored distance in ascending
order open the stored inlet, wait `flushTime`, and close it; finally close
the active input. -/
def flushInletTree (deviceNames : List String) (inputInlet : String)
    (vacantInlets : List String) (flushTime : Int) :
    Except PyErr (List ValveEvent) := do
  let inputIndex ← inputIndexLookup inputInlet
  let m ← buildVacantDict inputIndex vacantInlets []
  let flushEvents := (flushPairs m).flatMap
    (fun p => [ValveEvent.openV [p.snd], ValveEvent.sleep flushTime, ValveEvent.closeV [p.snd]])
  Except.ok ([ValveEvent.closeV (allInputs ++ ["in"]), ValveEvent.openV [inputInlet]] ++
    flushEvents ++ [ValveEvent.closeV [inputInlet]])

/-- A camera/scope duty cycle of `taskscheduler.py`:
`(start, stop, deviceName)`. -/
abbrev BusyPeriod : Type := Int × Int × String

/-- The `(start, stop)` projection of a busy period (`busyTime[0:2]`). -/
def busyPair (b : BusyPeriod) : Int × Int :=
  (b.fst, b.snd.fst)

/-- Python `range(a, b)` over the integers. -/
def intRange (a b : Int) : List Int :=
  (List.range (b - a).toNat).map (fun (i : Nat) => a + (i : Int))

/-- The buffered occupancy range of one duty cycle:
`range(start - overlapBuffer, stop + overlapBuffer)`
(taskscheduler.py lines 115-116). -/
def dutyRange (p : Int × Int) (overlapBuffer : Int) : List Int :=
  intRange (p.fst - overlapBuffer) (p.snd + overlapBuffer)

/-- `schedulingCollisionsFlag` (taskscheduler.py lines 95-119): true when
some device-2 duty cycle's buffered range shares an element with some
device-1 duty cycle's buffered range. -/
def schedulingCollisionsFlag (schedule1BusyTimes schedule2BusyTimes : List (Int × Int))
    (overlapBuffer : Int) : Bool :=
  schedule2BusyTimes.any (fun d2 =>
    schedule1BusyTimes.any (fun d1 =>
      (dutyRange d1 overlapBuffer).any (fun x => (dutyRange d2 overlapBuffer).contains x)))

/-- `shiftScheduleOffset` (taskscheduler.py lines 76-92): shifts the first
two components of every busy period by the offset, dropping the device
name (`tuple(map(lambda t: int(t)+offset, busyTime[0:2]))`). -/
def shiftScheduleOffset (schedule : List BusyPeriod) (offset : Int) : List (Int × Int) :=
  schedule.map (fun b => (b.fst + offset, b.snd.fst + offset))

/-- `indolentPeriods` (taskscheduler.py lines 44-73): the gaps between
consecutive duty cycles, plus a trailing window of `maxTime` beyond the
last duty cycle's stop.  (The source's even/odd branches are the same
code.)  On an empty schedule the subscript `busyTimes[index][1]` raises
`IndexError`. -/
def indolentPeriods (busyTimes : List BusyPeriod) (maxTime : Int) :
    Except PyErr (List (Int × Int)) :=
  match busyTimes with
  | [] => Except.error PyErr.indexError
  | b :: rest =>
    Except.ok ((busyTimes.zip rest).map (fun q => (q.fst.snd.fst, q.snd.fst)) ++
      [((busyTimes.getLastD b).snd.fst, (busyTimes.getLastD b).snd.fst + maxTime)])

/-- The offsets examined by `findRiffledSchedule`, in order: for each
indolent period `p` of schedule 2 (with the trailing window extended by
500 s), every integer in `range(p[0], p[1])`. -/
def candidateOffsets (schedule2 : List BusyPeriod) : Except PyErr (List Int) := do
  let periods ← indolentPeriods schedule2 500
  Except.ok (periods.flatMap (fun p => intRange p.fst p.snd))

/-- The `'d2'` entry of the dict returned by `findRiffledSchedule`: either
a shifted schedule (pairs, the device name dropped by
`shiftScheduleOffset`) or the original unshifted schedule (triples). -/
inductive D2Schedule : Type
  | shifted (s : List (Int × Int))
  | unshifted (s : List BusyPeriod)
  deriving Repr, DecidableEq

/-- The candidate-offset scan of `findRiffledSchedule`: the first offset
whose shifted schedule 2 is collision-free (under the default
`overlapBuffer = 60`) yields the riffled result. -/
def riffleSearch (schedule1 schedule2 : List BusyPeriod) :
    List Int → Option (List (Int × Int))
  | [] => none
  | offset :: rest =>
    let updatedSchedule2 := shiftScheduleOffset schedule2 offset
    if schedulingCollisionsFlag (schedule1.map busyPair) updatedSchedule2 60 then
      riffleSearch schedule1 schedule2 rest
    else
      some updatedSchedule2

/-- `findRiffledSchedule` (taskscheduler.py lines 122-144): returns
`{'d1': schedule1, 'd2': shifted}` for the first collision-free candidate
offset, or the original unshifted pair when no candidate offset is
collision-free. -/
def findRiffledSchedule (schedule1 schedule2 : List BusyPeriod) :
    Except PyErr (List BusyPeriod × D2Schedule) := do
  let offsets ← candidateOffsets schedule2
  match riffleSearch schedule1 schedule2 offsets with
  | some updated => Except.ok (schedule1, D2Schedule.shifted updated)
  | none => Except.ok (schedule1, D2Schedule.unshifted schedule2)

/-- The pure value of `buildVacantDict` when every vacant inlet is one of
the eight named input lines (so that no lookup raises). -/
def vacantFold (inputIndex : Int) : List String → List (Nat × String) → List (Nat × String)
  | [], m => m
  | inlet :: rest, m =>
    vacantFold inputIndex rest
      (dictInsert m ((allInputs.findIdx (fun s => s == inlet) : Int) - inputIndex).natAbs inlet)

/-- The trailing character of a string (`s[-1]`), `none` on the empty
string. -/
def trailingChar (s : String) : Option Char :=
  s.toList.getLast?

/-- Whether a trace of valve events ever opens the given inlet. -/
def opensInlet (trace : List ValveEvent) (inlet : String) : Bool :=
  trace.any (fun e =>
    match e with
    | ValveEvent.openV vs => vs.contains inlet
    | _ => false)

/-- C6: `removeAssayTimings` on a name absent from the timing table does
not return normally with a warning: the `KeyError` is caught, but the
handler's `raise warnings.warn(note)` reads the unbound name `note` and so
raises `NameError`, which propagates to the caller.  The code contradicts
its own stated intent of warning instead of raising. -/
theorem removeAssayTimings_raises_nameError :
    removeAssayTimings [("kinetic", [90, 90])] ["missing"] =
      Except.error (PyErr.nameError "note") := rfl

/-- C1: every call to `scan` raises `NameError('i')`: the very first loop
pass (and, for an empty position list, the closing `home_stage` call)
enters `move_stage_poslist`, whose body reads the unbound name `i`.  No
imaging-record row is appended and no TIFF is written, so the claimed
N×K rows and files are never produced. -/
theorem scan_raises_nameError (position_list : List Position)
    (channelsExposures : List (String × List Int)) (zControl : Bool) :
    scan position_list channelsExposures zControl =
      Except.error (PyErr.nameError "i") := by
  cases position_list with
  | nil => rfl
  | cons p rest => rfl

/-- C8: `initializeHardware` is the total case split the specification
describes: `'all'` initializes manifold, then microscope, then temperature
probe, in that order; each named subset initializes only its device
category; an absent subset warns and initializes nothing; every other
value raises `ValueError` and initializes nothing. -/
theorem initializeHardware_matches_spec (subset : Option String) :
    initializeHardware subset = initializeHardwareSpec subset := by
  cases subset with
  | none => rfl
  | some s =>
    by_cases h1 : s = "all"
    · subst h1; rfl
    · by_cases h2 : s = "manifold"
      · subst h2; rfl
      · by_cases h3 : s = "microscope"
        · subst h3; rfl
        · by_cases h4 : s = "temperature"
          · subst h4; rfl
          · have e1 : (s == "all") = false := beq_eq_false_iff_ne.mpr h1
            have e2 : (s == "manifold") = false := beq_eq_false_iff_ne.mpr h2
            have e3 : (s == "microscope") = false := beq_eq_false_iff_ne.mpr h3
            have e4 : (s == "temperature") = false := beq_eq_false_iff_ne.mpr h4
            simp [initializeHardware, initializeHardwareSpec, List.lookup, h1, h2, h3, h4,
              e1, e2, e3, e4]

/-- Helper for C7: `probeLoadGo` raises the connection `IOError` exactly
when some remaining resource matches both identifiers but its open
fails. -/
theorem probeLoadGo_error_iff (vid pid : String) (canOpen : String → Bool) :
    ∀ (l : List String) (inst : Option String),
      probeLoadGo vid pid canOpen l inst =
          Except.error (PyErr.ioError "Connection to probe could not be established")
        ↔ ∃ d ∈ l, probeMatches vid pid d = true ∧ canOpen d = false := by
  intro l
  induction l with
  | nil => intro inst; simp [probeLoadGo]
  | cons d rest ih =>
    intro inst
    by_cases hm : (strContainsSub d vid && strContainsSub d pid) = true
    · by_cases ho : canOpen d = true
      · rw [show probeLoadGo vid pid canOpen (d :: rest) inst =
              probeLoadGo vid pid canOpen rest (some d) by
            simp [probeLoadGo, hm, ho], ih]
        constructor
        · rintro ⟨e, he, hme, hoe⟩; exact ⟨e, List.mem_cons_of_mem _ he, hme, hoe⟩
        · rintro ⟨e, he, hme, hoe⟩
          rcases List.mem_cons.mp he with rfl | he'
          · rw [ho] at hoe; cases hoe
          · exact ⟨e, he', hme, hoe⟩
      · rw [show probeLoadGo vid pid canOpen (d :: rest) inst =
              Except.error (PyErr.ioError "Connection to probe could not be established") by
            simp [probeLoadGo, hm, ho]]
        constructor
        · intro _
          exact ⟨d, List.mem_cons_self d rest, by simpa [probeMatches] using hm,
            by simpa using ho⟩
        · intro _; rfl
    · rw [show probeLoadGo vid pid canOpen (d :: rest) inst =
            probeLoadGo vid pid canOpen rest inst by
          simp [probeLoadGo, hm], ih]
      constructor
      · rintro ⟨e, he, hme, hoe⟩; exact ⟨e, List.mem_cons_of_mem _ he, hme, hoe⟩
      · rintro ⟨e, he, hme, hoe⟩
        rcases List.mem_cons.mp he with rfl | he'
        · exact absurd (by simpa [probeMatches] using hme) hm
        · exact ⟨e, he', hme, hoe⟩

/-- Helper for C7: when every matching resource opens successfully,
`probeLoadGo` completes with `inst` set to the last matching resource (or
left as it was when none matches). -/
theorem probeLoadGo_ok (vid pid : String) (canOpen : String → Bool) :
    ∀ (l : List String) (inst : Option String),
      (∀ d ∈ l, probeMatches vid pid d = true → canOpen d = true) →
      probeLoadGo vid pid canOpen l inst =
        Except.ok (((l.filter (probeMatches vid pid)).getLast?).elim inst some) := by
  intro l
  induction l with
  | nil => intro inst _; rfl
  | cons d rest ih =>
    intro inst hall
    by_cases hm : probeMatches vid pid d = true
    · have ho : canOpen d = true := hall d (List.mem_cons_self d rest) hm
      have hm' : (strContainsSub d vid && strContainsSub d pid) = true := by
        simpa [probeMatches] using hm
      rw [show probeLoadGo vid pid canOpen (d :: rest) inst =
            probeLoadGo vid pid canOpen rest (some d) by
          simp [probeLoadGo, hm', ho]]
      rw [ih (some d) (fun e he hme => hall e (List.mem_cons_of_mem _ he) hme)]
      rw [List.filter_cons_of_pos hm]
      cases hfr : rest.filter (probeMatches vid pid) with
      | nil => simp
      | cons x xs => simp [List.getLast?_cons]
    · have hm' : (strContainsSub d vid && strContainsSub d pid) = false := by
        simpa [probeMatches] using hm
      rw [show probeLoadGo vid pid canOpen (d :: rest) inst =
            probeLoadGo vid pid canOpen rest inst by
          simp [probeLoadGo, hm']]
      rw [ih inst (fun e he hme => hall e (List.mem_cons_of_mem _ he) hme)]
      rw [List.filter_cons_of_neg (by simp [hm])]

/-- C7 counterexample: with a single enumerated resource matching neither
identifier, `load()` returns normally without opening anything — no
connection error is raised, contrary to the claim that a missing match
raises one. -/
theorem probeLoad_no_match_no_error :
    probeLoad ["ASRL1::INSTR"] "0x1313" "0x80F8" (fun _ => true) = Except.ok none ∧
      (Except.ok (none : Option String) : Except PyErr (Option String)) ≠
        Except.error (PyErr.ioError "Connection to probe could not be established") :=
  ⟨rfl, fun h => Except.noConfusion h⟩

/-- C7 (amended): `load()` raises the connection error exactly when some
matching resource's open call raises; when every matching resource opens
successfully it returns normally with `inst` equal to the **last**
matching resource — in particular, when no resource matches it returns
without raising and without opening anything. -/
theorem probeLoad_characterization (resources : List String) (vid pid : String)
    (canOpen : String → Bool) :
    (probeLoad resources vid pid canOpen =
        Except.error (PyErr.ioError "Connection to probe could not be established")
      ↔ ∃ d ∈ resources, probeMatches vid pid d = true ∧ canOpen d = false)
    ∧ ((∀ d ∈ resources, probeMatches vid pid d = true → canOpen d = true) →
      probeLoad resources vid pid canOpen =
        Except.ok (lastMatchingResource resources vid pid)) := by
  constructor
  · exact probeLoadGo_error_iff vid pid canOpen resources none
  · intro hall
    rw [probeLoad, probeLoadGo_ok vid pid canOpen resources none hall]
    cases hl : (resources.filter (probeMatches vid pid)).getLast? <;>
      simp [lastMatchingResource, hl]

/-- C7 witness: a concrete matching resource that opens successfully. -/
theorem probeLoad_characterization_witness :
    (∀ d ∈ ["USB0::0x1313::0x80F8::INSTR"],
        probeMatches "0x1313" "0x80F8" d = true → (fun _ => true : String → Bool) d = true)
    ∧ probeLoad ["USB0::0x1313::0x80F8::INSTR"] "0x1313" "0x80F8" (fun _ => true) =
        Except.ok (lastMatchingResource ["USB0::0x1313::0x80F8::INSTR"] "0x1313" "0x80F8") :=
  ⟨fun d _ _ => rfl,
    (probeLoad_characterization ["USB0::0x1313::0x80F8::INSTR"] "0x1313" "0x80F8"
      (fun _ => true)).2 (fun d _ _ => rfl)⟩

/-- Helper for C9: the no-offsets drain loop starts the assays in queue
order. -/
theorem drainQueue_eq {α : Type} (l : List α) : drainQueue l = l := by
  induction l with
  | nil => rfl
  | cons a q ih => simp [drainQueue, ih]

/-- Helper for C9: one pass of the offsets loop dequeues a prefix of the
queue onto the started list, preserving the overall order. -/
theorem startOffsetsPass_spec {α : Type} :
    ∀ (os : List Int) (q acc q' acc' : List α),
      startOffsetsPass os q acc = some (q', acc') → acc' ++ q' = acc ++ q := by
  intro os
  induction os with
  | nil =>
    intro q acc q' acc' h
    simp [startOffsetsPass] at h
    rw [h.1, h.2]
  | cons o os ih =>
    intro q acc q' acc' h
    cases q with
    | nil => simp [startOffsetsPass] at h
    | cons a q =>
      have := ih q (acc ++ [a]) q' acc' (by simpa [startOffsetsPass] using h)
      simpa using this

/-- Helper for C9: whenever the offsets loop completes, the started list
is the initial started list followed by the whole queue in order. -/
theorem startAssaysOffsetsLoop_spec {α : Type} (os : List Int) :
    ∀ (fuel : Nat) (q acc out : List α),
      startAssaysOffsetsLoop os fuel q acc = some out → out = acc ++ q := by
  intro fuel
  induction fuel with
  | zero => intro q acc out h; simp [startAssaysOffsetsLoop] at h
  | succ fuel ih =>
    intro q acc out h
    rw [startAssaysOffsetsLoop] at h
    by_cases hq : q.isEmpty
    · rw [if_pos hq] at h
      have hqnil : q = [] := List.isEmpty_iff.mp hq
      simp [hqnil] at h ⊢
      exact h.symm
    · rw [if_neg hq] at h
      cases hpass : startOffsetsPass os q acc with
      | none => rw [hpass] at h; cases h
      | some r =>
        rw [hpass] at h
        have h1 := ih r.1 r.2 out (by simpa using h)
        have h2 := startOffsetsPass_spec os q acc r.1 r.2 (by simpa using hpass)
        rw [h1, h2]

/-- C9: whenever `AssaySeries.startAssays` completes, the assays were
started in exactly the FIFO order in which `scheduleAssays` enqueued them
from the construction list, and the shared hardware-state flag was
incremented exactly once by the call. -/
theorem startAssays_fifo_and_increment {α : Type} (assayList : List α)
    (offsets : Option (List Int)) (h0 : Int) (started : List α) (h1 : Int)
    (hdone : startAssays assayList offsets h0 = some (started, h1)) :
    started = scheduleAssays assayList ∧ h1 = h0 + 1 := by
  cases offsets with
  | none =>
    simp [startAssays, drainQueue_eq] at hdone
    exact ⟨hdone.1.symm, hdone.2.symm⟩
  | some os =>
    cases os with
    | nil =>
      simp [startAssays, drainQueue_eq] at hdone
      exact ⟨hdone.1.symm, hdone.2.symm⟩
    | cons o os =>
      rw [startAssays] at hdone
      cases hloop : startAssaysOffsetsLoop (o :: os) (assayList.length + 1) assayList [] with
      | none => rw [hloop] at hdone; cases hdone
      | some st =>
        rw [hloop] at hdone
        have hst := startAssaysOffsetsLoop_spec (o :: os) (assayList.length + 1)
          assayList [] st hloop
        simp at hdone
        refine ⟨?_, hdone.2.symm⟩
        rw [← hdone.1, hst]
        simp [scheduleAssays]

/-- C9 witness: a two-assay series with a one-element offsets list
completes, starts the assays in enqueue order, and bumps the flag from 7
to 8. -/
theorem startAssays_fifo_and_increment_witness :
    (["a1", "a2"] : List String) = scheduleAssays ["a1", "a2"] ∧ (8 : Int) = 7 + 1 :=
  startAssays_fifo_and_increment ["a1", "a2"] (some [3]) 7 ["a1", "a2"] 8 rfl

/-- Helper for C2: if the density-search loop of `makeAssayTimings` exits
with density index `k'`, then either the incoming `baseTimes` already
reached `totalTime`, or the list built at `k'` reached it while the list
built one increment earlier (the one the function will return) fell
short. -/
theorem makeAssayTimingsLoop_spec (L : Int → List Int) (nlp : Nat) (sT T : Int) :
    ∀ (fuel : Nat) (k : Int) (b : List Int) (k' : Int),
      makeAssayTimingsLoop L nlp sT T fuel k b = some k' →
        (k' = k ∧ T ≤ b.sum) ∨
        (k' = k + 1 ∧ b.sum < T ∧ T ≤ (baseTimesAt L nlp sT (k + 1)).sum) ∨
        (k + 1 < k' ∧ (baseTimesAt L nlp sT (k' - 1)).sum < T ∧
          T ≤ (baseTimesAt L nlp sT k').sum) := by
  intro fuel
  induction fuel with
  | zero => intro k b k' h; simp [makeAssayTimingsLoop] at h
  | succ fuel ih =>
    intro k b k' h
    rw [makeAssayTimingsLoop] at h
    by_cases hlt : b.sum < T
    · rw [if_pos hlt] at h
      rcases ih (k + 1) (baseTimesAt L nlp sT (k + 1)) k' h with h1 | h2 | h3
      · exact Or.inr (Or.inl ⟨h1.1, hlt, h1.2⟩)
      · refine Or.inr (Or.inr ⟨by omega, ?_, ?_⟩)
        · have hk : k' - 1 = k + 1 := by omega
          rw [hk]; exact h2.2.1
        · rw [h2.1]; exact h2.2.2
      · exact Or.inr (Or.inr ⟨by omega, h3.2.1, h3.2.2⟩)
    · rw [if_neg hlt] at h
      simp at h
      exact Or.inl ⟨h.symm, not_lt.mp hlt⟩

/-- C2 (amended): whenever `makeAssayTimings` returns and the first loop
pass did not already reach `totalTime` (as it does not for the claim's
arguments), the returned list starts with `numLinearPoints` copies of
`scanTime`, but its sum is strictly **less** than `totalTime`: after the
density search exits, the function rebuilds the list at
`pointDensity - pointDenistyIncremener`, the last density whose summed
list fell short.  This holds for every value of the abstracted float64
`np.logspace` computation. -/
theorem makeAssayTimings_take_and_sum (L : Int → List Int) (nlp : Nat)
    (sT T : Int) (fuel : Nat) (result : List Int)
    (hres : makeAssayTimings L nlp sT T fuel = some result)
    (hT : 0 < T) (hfirst : (baseTimesAt L nlp sT 1).sum < T) :
    result.take nlp = List.replicate nlp sT ∧ result.sum < T := by
  rw [makeAssayTimings] at hres
  cases hloop : makeAssayTimingsLoop L nlp sT T fuel 0 [] with
  | none => rw [hloop] at hres; cases hres
  | some k =>
    rw [hloop] at hres
    simp at hres
    rcases makeAssayTimingsLoop_spec L nlp sT T fuel 0 [] k hloop with h1 | h2 | h3
    · exfalso
      have := h1.2
      simp at this
      omega
    · exfalso
      have hle := h2.2.2
      have h01 : (0 : Int) + 1 = 1 := by norm_num
      rw [h01] at hle
      omega
    · constructor
      · have htake := List.take_left (List.replicate nlp sT) (L (k - 1))
        rw [List.length_replicate] at htake
        rw [← hres, baseTimesAt]
        exact htake
      · rw [← hres]
        exact h3.2.1

/-- C2 counterexample: instantiating the abstracted logspace computation
with a monotone oracle on which the loop runs five passes, the returned
list's first five entries are 90 but its sum is 3150, strictly below the
claimed 3600: the list returned is the one rebuilt at the decremented
density, whose sum had just failed the loop test. -/
theorem makeAssayTimings_sum_falls_short :
    makeAssayTimings (fun k => List.replicate 10 (90 + 60 * k)) 5 90 3600 20 =
        some (List.replicate 5 90 ++ List.replicate 10 270)
      ∧ (List.replicate 5 (90 : Int) ++ List.replicate 10 270).take 5 =
          List.replicate 5 (90 : Int)
      ∧ ¬(3600 ≤ (List.replicate 5 (90 : Int) ++ List.replicate 10 270).sum) := by
  refine ⟨?_, by decide, by decide⟩
  rfl

/-- C2 witness: the amended statement applied to the same concrete
oracle. -/
theorem makeAssayTimings_take_and_sum_witness :
    (List.replicate 5 (90 : Int) ++ List.replicate 10 270).take 5 =
        List.replicate 5 (90 : Int)
      ∧ (List.replicate 5 (90 : Int) ++ List.replicate 10 270).sum < 3600 :=
  makeAssayTimings_take_and_sum (fun k => List.replicate 10 (90 + 60 * k)) 5 90 3600 20
    (List.replicate 5 90 ++ List.replicate 10 270) rfl (by decide) (by decide)


/-- Helper: binding a successful `Except` computation applies the
continuation. -/
theorem except_bind_ok {ε α β : Type} (a : α) (f : α → Except ε β) :
    (Except.ok a >>= f : Except ε β) = f a := rfl

/-- Helper: binding a failed `Except` computation propagates the error. -/
theorem except_bind_error {ε α β : Type} (e : ε) (f : α → Except ε β) :
    ((Except.error e : Except ε α) >>= f : Except ε β) = Except.error e := rfl

/-- Helper: association-list lookup fails exactly when the key is absent
from the key list. -/
theorem lookup_none_iff_not_mem_keys (d : List (String × List Int)) (k : String) :
    d.lookup k = none ↔ k ∉ d.map Prod.fst := by
  induction d with
  | nil => simp
  | cons p d ih =>
    obtain ⟨a, v⟩ := p
    by_cases hak : k = a
    · subst hak; simp [List.lookup]
    · have hbeq : (k == a) = false := beq_eq_false_iff_ne.mpr hak
      simp [List.lookup, hbeq, ih, hak]

/-- C3 counterexample: with every other parameter valid but the named
timing table absent, `Assay` construction raises `KeyError` (from
`experimentalObject.assayTimes[assayTimesName]` on line 57, before
`testParams` runs), not the claimed validation `ValueError`. -/
theorem assayInit_missing_timing_keyError :
    assayInit ["2bf"] ⟨["d1"], []⟩ "d1" "s1" [("2bf", [50])] "t0" =
        Except.error (PyErr.keyError "t0")
      ∧ isValidationError (PyErr.keyError "t0") = false :=
  ⟨rfl, rfl⟩

/-- C3 (amended): for non-empty device and inlet-port names, `Assay`
construction succeeds exactly when none of the four conditions holds; when
the named timing table is absent the raised error is a missing-key
`KeyError` (raised while building the acquisition object, before
validation), and when the timing table is present any of the other three
violations raises a validation `ValueError`. -/
theorem assayInit_characterization (hwChannels : List String) (h : HarnessState)
    (dname inletPort : String) (channelsExposures : List (String × List Int))
    (assayTimesName : String)
    (hd : dname.toList ≠ []) (hp : inletPort.toList ≠ []) :
    (assayInit hwChannels h dname inletPort channelsExposures assayTimesName = Except.ok () ↔
      ¬(dname ∉ h.posLists ∨
        trailingChar inletPort ≠ trailingChar dname ∨
        (∃ p ∈ channelsExposures, p.fst ∉ hwChannels) ∨
        assayTimesName ∉ h.assayTimes.map Prod.fst))
    ∧ (assayTimesName ∉ h.assayTimes.map Prod.fst →
        assayInit hwChannels h dname inletPort channelsExposures assayTimesName =
          Except.error (PyErr.keyError assayTimesName))
    ∧ (assayTimesName ∈ h.assayTimes.map Prod.fst →
        (dname ∉ h.posLists ∨
          trailingChar inletPort ≠ trailingChar dname ∨
          (∃ p ∈ channelsExposures, p.fst ∉ hwChannels)) →
        ∃ msg, assayInit hwChannels h dname inletPort channelsExposures assayTimesName =
          Except.error (PyErr.valueError msg)) := by
  by_cases hc4 : assayTimesName ∈ h.assayTimes.map Prod.fst
  case neg =>
    have hlook : h.assayTimes.lookup assayTimesName = none :=
      (lookup_none_iff_not_mem_keys _ _).mpr hc4
    have hres : assayInit hwChannels h dname inletPort channelsExposures assayTimesName =
        Except.error (PyErr.keyError assayTimesName) := by
      simp only [assayInit, pyDictGet, hlook]
      rfl
    refine ⟨?_, fun _ => hres, ?_⟩
    · constructor
      · intro hok; rw [hres] at hok; cases hok
      · intro hnone; exact absurd (Or.inr (Or.inr (Or.inr hc4))) hnone
    · intro hmem; exact absurd hmem hc4
  case pos =>
    obtain ⟨v, hlook⟩ : ∃ v, h.assayTimes.lookup assayTimesName = some v := by
      cases hl : h.assayTimes.lookup assayTimesName with
      | none => exact absurd ((lookup_none_iff_not_mem_keys _ _).mp hl) (by simpa using hc4)
      | some v => exact ⟨v, rfl⟩
    have hinit : assayInit hwChannels h dname inletPort channelsExposures assayTimesName =
        testParams hwChannels h dname inletPort channelsExposures assayTimesName := by
      simp only [assayInit, pyDictGet, hlook]
      rfl
    have hc4b : (h.assayTimes.map Prod.fst).contains assayTimesName = true := by
      simpa using hc4
    obtain ⟨pc, hpc⟩ : ∃ c, inletPort.toList.getLast? = some c := by
      cases hl : inletPort.toList with
      | nil => exact absurd hl hp
      | cons a as => exact ⟨as.getLast?.getD a, List.getLast?_cons⟩
    obtain ⟨dc, hdc⟩ : ∃ c, dname.toList.getLast? = some c := by
      cases hl : dname.toList with
      | nil => exact absurd hl hd
      | cons a as => exact ⟨as.getLast?.getD a, List.getLast?_cons⟩
    have hsp : strLastChar inletPort = Except.ok pc := by
      simp only [strLastChar, hpc]
    have hsd : strLastChar dname = Except.ok dc := by
      simp only [strLastChar, hdc]
    have htp : trailingChar inletPort = some pc := hpc
    have htd : trailingChar dname = some dc := hdc
    by_cases hc1 : dname ∈ h.posLists
    case neg =>
      have hcb : h.posLists.contains dname = false := by simpa using hc1
      have htest : testParams hwChannels h dname inletPort channelsExposures assayTimesName =
          Except.error (PyErr.valueError "Device name incorrect or not added to experimental object") := by
        simp only [testParams]
        rw [if_pos hcb]
      refine ⟨?_, fun hmem => absurd hc4 (fun _ => hmem hc4), ?_⟩
      · constructor
        · intro hok; rw [hinit, htest] at hok; cases hok
        · intro hnone; exact absurd (Or.inl hc1) hnone
      · intro _ _; exact ⟨_, by rw [hinit, htest]⟩
    case pos =>
      have hcb : h.posLists.contains dname = true := by simpa using hc1
      have hnotfalse : ¬(h.posLists.contains dname = false) := by simp [hc1]
      by_cases hcc : pc = dc
      case pos =>
        cases hf : channelsExposures.find? (fun p => !(hwChannels.contains p.fst)) with
        | some p =>
          have hpmem := List.mem_of_find?_eq_some hf
          have hpfalse : p.fst ∉ hwChannels := by
            have := List.find?_some hf
            simpa using this
          have htest : testParams hwChannels h dname inletPort channelsExposures assayTimesName =
              Except.error (PyErr.valueError ("Channel " ++ p.fst ++ " does not exist for hardware")) := by
            simp only [testParams]
            rw [if_neg hnotfalse, hsp, except_bind_ok, hsd, except_bind_ok,
              if_neg (not_not_intro hcc), hf]
          refine ⟨?_, fun hmem => absurd hc4 (fun _ => hmem hc4), ?_⟩
          · constructor
            · intro hok; rw [hinit, htest] at hok; cases hok
            · intro hnone; exact absurd (Or.inr (Or.inr (Or.inl ⟨p, hpmem, hpfalse⟩))) hnone
          · intro _ _; exact ⟨_, by rw [hinit, htest]⟩
        | none =>
          have htest : testParams hwChannels h dname inletPort channelsExposures assayTimesName =
              Except.ok () := by
            simp only [testParams]
            rw [if_neg hnotfalse, hsp, except_bind_ok, hsd, except_bind_ok,
              if_neg (not_not_intro hcc), hf,
              if_neg (show ¬((h.assayTimes.map Prod.fst).contains assayTimesName = false) by
                simpa using hc4)]
          refine ⟨?_, fun hmem => absurd hc4 (fun _ => hmem hc4), ?_⟩
          · constructor
            · intro _
              rintro (hbad | hbad | ⟨p, hpmem, hpfalse⟩ | hbad)
              · exact hbad hc1
              · rw [htp, htd, hcc] at hbad; exact hbad rfl
              · have := List.find?_eq_none.mp hf p hpmem
                simp at this
                exact hpfalse this
              · exact hbad hc4
            · intro _; rw [hinit, htest]
          · rintro _ (hbad | hbad | ⟨p, hpmem, hpfalse⟩)
            · exact absurd hc1 hbad
            · rw [htp, htd, hcc] at hbad; exact absurd rfl hbad
            · have := List.find?_eq_none.mp hf p hpmem
              simp at this
              exact absurd this hpfalse
      case neg =>
        have htest : testParams hwChannels h dname inletPort channelsExposures assayTimesName =
            Except.error (PyErr.valueError "Your inlet port either lacks a trailing digit or is for another device") := by
          simp only [testParams]
          rw [if_neg hnotfalse, hsp, except_bind_ok, hsd, except_bind_ok, if_pos hcc]
        refine ⟨?_, fun hmem => absurd hc4 (fun _ => hmem hc4), ?_⟩
        · constructor
          · intro hok; rw [hinit, htest] at hok; cases hok
          · intro hnone
            refine absurd (Or.inr (Or.inl ?_)) hnone
            rw [htp, htd]
            intro hsome
            exact hcc (Option.some.inj hsome)
        · intro _ _; exact ⟨_, by rw [hinit, htest]⟩

/-- C3 witness: a fully valid construction succeeds, instantiating the
amended characterization at concrete parameters. -/
theorem assayInit_characterization_witness :
    assayInit ["2bf"] ⟨["d1"], [("t0", [90])]⟩ "d1" "s1" [("2bf", [50])] "t0" =
      Except.ok () :=
  ((assayInit_characterization ["2bf"] ⟨["d1"], [("t0", [90])]⟩ "d1" "s1"
      [("2bf", [50])] "t0" (by decide) (by decide)).1).mpr (by
    rintro (hbad | hbad | ⟨p, hpmem, hpfalse⟩ | hbad)
    · exact hbad (by decide)
    · exact hbad (by decide)
    · simp at hpmem
      rw [hpmem] at hpfalse
      exact hpfalse (by decide)
    · exact hbad (by decide))

/-- Helper: membership in the integer `range(a, b)`. -/
theorem mem_intRange {a b x : Int} : x ∈ intRange a b ↔ a ≤ x ∧ x < b := by
  simp only [intRange, List.mem_map, List.mem_range]
  constructor
  · rintro ⟨i, hi, rfl⟩
    omega
  · intro h
    exact ⟨(x - a).toNat, by omega, by omega⟩

/-- Helper for C4: if the candidate scan returns a shifted schedule, it is
the shift of schedule 2 by some scanned offset, and that shifted schedule
is collision-free against schedule 1. -/
theorem riffleSearch_some (s1 s2 : List BusyPeriod) :
    ∀ (os : List Int) (u : List (Int × Int)),
      riffleSearch s1 s2 os = some u →
      ∃ o ∈ os, u = shiftScheduleOffset s2 o ∧
        schedulingCollisionsFlag (s1.map busyPair) u 60 = false := by
  intro os
  induction os with
  | nil => intro u h; cases h
  | cons o os ih =>
    intro u h
    simp only [riffleSearch] at h
    by_cases hc : schedulingCollisionsFlag (s1.map busyPair) (shiftScheduleOffset s2 o) 60 = true
    · rw [if_pos hc] at h
      obtain ⟨o', ho', hu, hflag⟩ := ih u h
      exact ⟨o', List.mem_cons_of_mem _ ho', hu, hflag⟩
    · rw [if_neg hc] at h
      have hu := Option.some.inj h
      refine ⟨o, List.mem_cons_self o os, hu.symm, ?_⟩
      rw [← hu]
      simpa using hc

/-- Helper for C4: if the candidate scan fails, every scanned offset's
shifted schedule collides with schedule 1. -/
theorem riffleSearch_none (s1 s2 : List BusyPeriod) :
    ∀ (os : List Int), riffleSearch s1 s2 os = none →
      ∀ o ∈ os,
        schedulingCollisionsFlag (s1.map busyPair) (shiftScheduleOffset s2 o) 60 = true := by
  intro os
  induction os with
  | nil => intro _ o ho; simp at ho
  | cons o os ih =>
    intro h o' ho'
    simp only [riffleSearch] at h
    by_cases hc : schedulingCollisionsFlag (s1.map busyPair) (shiftScheduleOffset s2 o) 60 = true
    · rw [if_pos hc] at h
      rcases List.mem_cons.mp ho' with rfl | hmem
      · exact hc
      · exact ih h o' hmem
    · rw [if_neg hc] at h; cases h

/-- Helper for C4: a schedule containing a duty cycle whose buffered range
is non-empty collides with its own zero-offset shift. -/
theorem schedulingCollisionsFlag_self (s : List BusyPeriod) (b : BusyPeriod)
    (hb : b ∈ s) (hnd : b.fst < b.snd.fst + 120) :
    schedulingCollisionsFlag (s.map busyPair) (shiftScheduleOffset s 0) 60 = true := by
  have hmem1 : busyPair b ∈ s.map busyPair := List.mem_map_of_mem busyPair hb
  have hmem2 : (b.fst + 0, b.snd.fst + 0) ∈ shiftScheduleOffset s 0 := by
    simp only [shiftScheduleOffset]
    exact List.mem_map_of_mem _ hb
  rw [schedulingCollisionsFlag, List.any_eq_true]
  refine ⟨(b.fst + 0, b.snd.fst + 0), hmem2, ?_⟩
  rw [List.any_eq_true]
  refine ⟨busyPair b, hmem1, ?_⟩
  rw [List.any_eq_true]
  refine ⟨b.fst - 60, ?_, ?_⟩
  · simp only [dutyRange, busyPair]
    exact mem_intRange.mpr ⟨by omega, by omega⟩
  · have hx : b.fst - 60 ∈ dutyRange (b.fst + 0, b.snd.fst + 0) 60 := by
      simp only [dutyRange]
      exact mem_intRange.mpr ⟨by omega, by omega⟩
    simpa using hx

/-- C4 counterexample: two identical non-empty schedules whose duty
cycles are degenerate (`stop ≤ start - 120`, so every buffered range is
empty).  The first candidate offset (0) is collision-free, so
`findRiffledSchedule` returns the riffled branch whose device-2 offsets
are identical to the input's: the returned device-2 schedule neither
differs in its offsets nor equals the original unshifted schedule. -/
theorem findRiffledSchedule_identical_degenerate :
    findRiffledSchedule [(130, 0, "d"), (400, 270, "d")] [(130, 0, "d"), (400, 270, "d")] =
        Except.ok ([(130, 0, "d"), (400, 270, "d")],
          D2Schedule.shifted [(130, 0), (400, 270)])
      ∧ ([(130, 0, "d"), (400, 270, "d")] : List BusyPeriod).map busyPair =
          [(130, 0), (400, 270)]
      ∧ D2Schedule.shifted [(130, 0), (400, 270)] ≠
          D2Schedule.unshifted [(130, 0, "d"), (400, 270, "d")] := by
  refine ⟨?_, rfl, by simp⟩
  rfl

/-- C4 (amended): `findRiffledSchedule` keeps schedule 1 and returns
either the shift of schedule 2 by the first collision-free candidate
offset, or the original unshifted schedule 2 when every candidate offset
collides.  For two identical non-empty schedules containing at least one
non-degenerate duty cycle (buffered range non-empty), the returned
device-2 schedule either differs in its offsets from the input and is
collision-free against device 1, or equals the original. -/
theorem findRiffledSchedule_characterization (s1 s2 : List BusyPeriod)
    (offsets : List Int) (out : List BusyPeriod × D2Schedule)
    (hoff : candidateOffsets s2 = Except.ok offsets)
    (hout : findRiffledSchedule s1 s2 = Except.ok out) :
    out.fst = s1
    ∧ ((∃ o ∈ offsets, out.snd = D2Schedule.shifted (shiftScheduleOffset s2 o) ∧
          schedulingCollisionsFlag (s1.map busyPair) (shiftScheduleOffset s2 o) 60 = false)
      ∨ (out.snd = D2Schedule.unshifted s2 ∧
          ∀ o ∈ offsets,
            schedulingCollisionsFlag (s1.map busyPair) (shiftScheduleOffset s2 o) 60 = true))
    ∧ (s1 = s2 → s2 ≠ [] → (∃ b ∈ s2, b.fst < b.snd.fst + 120) →
        (∃ u, out.snd = D2Schedule.shifted u ∧ u ≠ s2.map busyPair ∧
          schedulingCollisionsFlag (s2.map busyPair) u 60 = false)
        ∨ out.snd = D2Schedule.unshifted s2) := by
  simp only [findRiffledSchedule] at hout
  rw [hoff, except_bind_ok] at hout
  cases hsr : riffleSearch s1 s2 offsets with
  | some u =>
    rw [hsr] at hout
    have hout' : out = (s1, D2Schedule.shifted u) := by
      simpa using hout.symm
    obtain ⟨o, ho, hu, hflag⟩ := riffleSearch_some s1 s2 offsets u hsr
    refine ⟨by rw [hout'], Or.inl ⟨o, ho, ?_, hu ▸ hflag⟩, ?_⟩
    · rw [hout']
      exact congrArg D2Schedule.shifted hu
    · rintro hs12 hne ⟨b, hb, hnd⟩
      left
      refine ⟨u, by rw [hout'], ?_, hs12 ▸ hflag⟩
      intro hequ
      have hzero : shiftScheduleOffset s2 0 = s2.map busyPair := by
        simp [shiftScheduleOffset, busyPair]
      have hself := schedulingCollisionsFlag_self s2 b hb hnd
      rw [hzero] at hself
      rw [hs12, hequ, hself] at hflag
      cases hflag
  | none =>
    rw [hsr] at hout
    have hout' : out = (s1, D2Schedule.unshifted s2) := by
      simpa using hout.symm
    refine ⟨by rw [hout'], Or.inr ⟨by rw [hout'], riffleSearch_none s1 s2 offsets hsr⟩, ?_⟩
    intro _ _ _
    right
    rw [hout']

set_option maxRecDepth 20000 in
/-- C4 witness: two disjoint one-cycle schedules riffle at the first
candidate offset. -/
theorem findRiffledSchedule_characterization_witness :
    (([(1000, 1000, "d1")], D2Schedule.shifted [(0, 0)]) :
        List BusyPeriod × D2Schedule).fst = [(1000, 1000, "d1")]
      ∧ ((∃ o ∈ (intRange 0 500 : List Int),
            (([(1000, 1000, "d1")], D2Schedule.shifted [(0, 0)]) :
                List BusyPeriod × D2Schedule).snd =
              D2Schedule.shifted (shiftScheduleOffset [(0, 0, "d2")] o) ∧
            schedulingCollisionsFlag (([(1000, 1000, "d1")] : List BusyPeriod).map busyPair)
              (shiftScheduleOffset [(0, 0, "d2")] o) 60 = false)
        ∨ ((([(1000, 1000, "d1")], D2Schedule.shifted [(0, 0)]) :
              List BusyPeriod × D2Schedule).snd = D2Schedule.unshifted [(0, 0, "d2")] ∧
            ∀ o ∈ (intRange 0 500 : List Int),
              schedulingCollisionsFlag (([(1000, 1000, "d1")] : List BusyPeriod).map busyPair)
                (shiftScheduleOffset [(0, 0, "d2")] o) 60 = true))
      ∧ (([(1000, 1000, "d1")] : List BusyPeriod) = [(0, 0, "d2")] →
          ([(0, 0, "d2")] : List BusyPeriod) ≠ [] →
          (∃ b ∈ ([(0, 0, "d2")] : List BusyPeriod), b.fst < b.snd.fst + 120) →
          (∃ u, (([(1000, 1000, "d1")], D2Schedule.shifted [(0, 0)]) :
                List BusyPeriod × D2Schedule).snd = D2Schedule.shifted u ∧
            u ≠ ([(0, 0, "d2")] : List BusyPeriod).map busyPair ∧
            schedulingCollisionsFlag (([(0, 0, "d2")] : List BusyPeriod).map busyPair)
              u 60 = false)
          ∨ (([(1000, 1000, "d1")], D2Schedule.shifted [(0, 0)]) :
              List BusyPeriod × D2Schedule).snd = D2Schedule.unshifted [(0, 0, "d2")]) :=
  findRiffledSchedule_characterization [(1000, 1000, "d1")] [(0, 0, "d2")] (intRange 0 500)
    ([(1000, 1000, "d1")], D2Schedule.shifted [(0, 0)]) rfl rfl

/-- Helper for C5: a pair of the dict after an insertion was either
already present or is the inserted binding. -/
theorem dictInsert_mem (m : List (Nat × String)) (k : Nat) (v : String) :
    ∀ p ∈ dictInsert m k v, p ∈ m ∨ p = (k, v) := by
  intro p hp
  rw [dictInsert] at hp
  by_cases hc : (m.map Prod.fst).contains k = true
  · rw [if_pos hc] at hp
    obtain ⟨q, hq, hpq⟩ := List.mem_map.mp hp
    by_cases hqk : q.fst = k
    · right; rw [← hpq]; simp [hqk]
    · left; rw [← hpq]; simp [hqk]; exact hq
  · rw [if_neg hc] at hp
    rcases List.mem_append.mp hp with h | h
    · left; exact h
    · right; simpa using h

/-- Helper for C5: dict insertion replaces at an existing key and appends
at a new one, so the key list is unchanged or extended by the new key. -/
theorem dictInsert_keys (m : List (Nat × String)) (k : Nat) (v : String) :
    (dictInsert m k v).map Prod.fst =
      if (m.map Prod.fst).contains k then m.map Prod.fst else m.map Prod.fst ++ [k] := by
  rw [dictInsert]
  by_cases hc : (m.map Prod.fst).contains k = true
  · rw [if_pos hc, if_pos hc, List.map_map]
    apply List.map_congr_left
    intro q _
    by_cases hqk : q.fst = k
    · simp [hqk]
    · simp [hqk]
  · rw [if_neg hc, if_neg hc]
    simp

/-- Helper for C5: the inserted key is a key of the updated dict. -/
theorem dictInsert_key_mem (m : List (Nat × String)) (k : Nat) (v : String) :
    k ∈ (dictInsert m k v).map Prod.fst := by
  rw [dictInsert_keys]
  by_cases hc : (m.map Prod.fst).contains k = true
  · rw [if_pos hc]; simpa using hc
  · rw [if_neg hc]; simp

/-- Helper for C5: dict insertion keeps every existing key. -/
theorem dictInsert_keys_superset (m : List (Nat × String)) (k : Nat) (v : String)
    (k' : Nat) (h : k' ∈ m.map Prod.fst) : k' ∈ (dictInsert m k v).map Prod.fst := by
  rw [dictInsert_keys]
  by_cases hc : (m.map Prod.fst).contains k = true
  · rw [if_pos hc]; exact h
  · rw [if_neg hc]; exact List.mem_append_left _ h

/-- Helper for C5: dict insertion preserves distinctness of keys. -/
theorem dictInsert_nodup (m : List (Nat × String)) (k : Nat) (v : String)
    (h : (m.map Prod.fst).Nodup) : ((dictInsert m k v).map Prod.fst).Nodup := by
  rw [dictInsert_keys]
  by_cases hc : (m.map Prod.fst).contains k = true
  · rw [if_pos hc]; exact h
  · rw [if_neg hc]
    have hk : k ∉ m.map Prod.fst := by simpa using hc
    simp [List.nodup_append, h, hk]

/-- Helper for C5: every pair of the folded vacant-inlet dict is either in
the seed dict or binds a processed vacant inlet to its index-distance. -/
theorem vacantFold_mem (idx : Int) :
    ∀ (vs : List String) (m : List (Nat × String)) (p : Nat × String),
      p ∈ vacantFold idx vs m →
      p ∈ m ∨ (p.snd ∈ vs ∧
        p.fst = ((allInputs.findIdx (fun s => s == p.snd) : Int) - idx).natAbs) := by
  intro vs
  induction vs with
  | nil => intro m p hp; exact Or.inl hp
  | cons inlet vs ih =>
    intro m p hp
    rw [vacantFold] at hp
    rcases ih _ p hp with hmem | ⟨hv, hd⟩
    · rcases dictInsert_mem _ _ _ p hmem with h | h
      · exact Or.inl h
      · right
        rw [h]
        exact ⟨List.mem_cons_self inlet vs, rfl⟩
    · exact Or.inr ⟨List.mem_cons_of_mem _ hv, hd⟩

/-- Helper for C5: the fold never drops a key. -/
theorem vacantFold_keys_mono (idx : Int) :
    ∀ (vs : List String) (m : List (Nat × String)) (k : Nat),
      k ∈ m.map Prod.fst → k ∈ (vacantFold idx vs m).map Prod.fst := by
  intro vs
  induction vs with
  | nil => intro m k hk; exact hk
  | cons inlet vs ih =>
    intro m k hk
    rw [vacantFold]
    exact ih _ k (dictInsert_keys_superset _ _ _ k hk)

/-- Helper for C5: every processed vacant inlet's index-distance ends up
among the dict's keys. -/
theorem vacantFold_covers (idx : Int) :
    ∀ (vs : List String) (m : List (Nat × String)) (v : String), v ∈ vs →
      ((allInputs.findIdx (fun s => s == v) : Int) - idx).natAbs ∈
        (vacantFold idx vs m).map Prod.fst := by
  intro vs
  induction vs with
  | nil => intro m v hv; simp at hv
  | cons inlet vs ih =>
    intro m v hv
    rcases List.mem_cons.mp hv with rfl | hmem
    · rw [vacantFold]
      exact vacantFold_keys_mono idx vs _ _ (dictInsert_key_mem _ _ _)
    · rw [vacantFold]
      exact ih _ v hmem

/-- Helper for C5: the folded dict has distinct keys. -/
theorem vacantFold_nodup (idx : Int) :
    ∀ (vs : List String) (m : List (Nat × String)),
      (m.map Prod.fst).Nodup → ((vacantFold idx vs m).map Prod.fst).Nodup := by
  intro vs
  induction vs with
  | nil => intro m h; exact h
  | cons inlet vs ih =>
    intro m h
    rw [vacantFold]
    exact ih _ (dictInsert_nodup _ _ _ h)

/-- Helper for C5: when every vacant inlet is a named input line, the
monadic dict construction succeeds and equals the pure fold. -/
theorem buildVacantDict_ok (idx : Int) :
    ∀ (vs : List String) (m : List (Nat × String)),
      (∀ v ∈ vs, v ∈ allInputs) →
      buildVacantDict idx vs m = Except.ok (vacantFold idx vs m) := by
  intro vs
  induction vs with
  | nil => intro m _; rfl
  | cons inlet vs ih =>
    intro m hall
    have hc : allInputs.contains inlet = true := by
      simpa using hall inlet (List.mem_cons_self inlet vs)
    rw [buildVacantDict, inputIndexLookup, if_pos hc, except_bind_ok, vacantFold]
    exact ih _ (fun v hv => hall v (List.mem_cons_of_mem _ hv))

/-- Helper for C5: when every key of the scanned list has a binding, the
filter-mapped pair list projects back onto the key list. -/
theorem filterMap_lookup_keys (m : List (Nat × String)) :
    ∀ ks : List Nat, (∀ d ∈ ks, (m.lookup d).isSome) →
      (ks.filterMap (fun d => (m.lookup d).map (fun v => (d, v)))).map Prod.fst = ks := by
  intro ks
  induction ks with
  | nil => intro _; rfl
  | cons d ks ih =>
    intro hall
    have hd := hall d (List.mem_cons_self d ks)
    obtain ⟨v, hv⟩ := Option.isSome_iff_exists.mp hd
    simp [List.filterMap_cons, hv, ih (fun e he => hall e (List.mem_cons_of_mem _ he))]

/-- Helper for C5: every pair of the sorted flush iteration is a binding
of the dict. -/
theorem flushPairs_mem (m : List (Nat × String)) (p : Nat × String)
    (hp : p ∈ flushPairs m) : p ∈ m := by
  rw [flushPairs] at hp
  obtain ⟨d, _, hmap⟩ := List.mem_filterMap.mp hp
  cases hv : m.lookup d with
  | none => rw [hv] at hmap; cases hmap
  | some v =>
    rw [hv] at hmap
    simp at hmap
    obtain ⟨l₁, l₂, heq, _⟩ := List.lookup_eq_some_iff.mp hv
    rw [← hmap, heq]
    exact List.mem_append_right _ (List.mem_cons_self _ _)

/-- C5 counterexample: with active input `ext1` and vacant inlets `ext2`
and `ph` — both at index-distance 1 — the distance-keyed dict keeps only
the later inlet, so `ext2` is never opened during the flush: the claim
that every vacant inlet is opened fails. -/
theorem flushInletTree_equidistant_skipped :
    flushInletTree ["d1"] "ext1" ["ext2", "ph"] 5 =
        Except.ok [ValveEvent.closeV (allInputs ++ ["in"]), ValveEvent.openV ["ext1"],
          ValveEvent.openV ["ph"], ValveEvent.sleep 5, ValveEvent.closeV ["ph"],
          ValveEvent.closeV ["ext1"]]
      ∧ opensInlet [ValveEvent.closeV (allInputs ++ ["in"]), ValveEvent.openV ["ext1"],
          ValveEvent.openV ["ph"], ValveEvent.sleep 5, ValveEvent.closeV ["ph"],
          ValveEvent.closeV ["ext1"]] "ext2" = false
      ∧ "ext2" ∈ ["ext2", "ph"] :=
  ⟨rfl, rfl, List.mem_cons_self _ _⟩

/-- C5 (amended): for an active input among the eight named lines and
vacant inlets drawn from them, the flush trace closes everything, opens
the active input, then for each **distinct** index-distance (in strictly
increasing order) opens exactly one vacant inlet at that distance (the
last one listed, when several are equidistant), waits, and closes it
before the next; finally it closes the active input.  Every vacant
inlet's distance is represented, but equidistant vacant inlets beyond the
retained one are never opened. -/
theorem flushInletTree_characterization (deviceNames : List String)
    (inputInlet : String) (vacantInlets : List String) (flushTime : Int)
    (hin : inputInlet ∈ allInputs) (hvac : ∀ v ∈ vacantInlets, v ∈ allInputs)
    (trace : List ValveEvent)
    (htr : flushInletTree deviceNames inputInlet vacantInlets flushTime = Except.ok trace) :
    ∃ chosen : List (Nat × String),
      trace = [ValveEvent.closeV (allInputs ++ ["in"]), ValveEvent.openV [inputInlet]] ++
          chosen.flatMap (fun p =>
            [ValveEvent.openV [p.snd], ValveEvent.sleep flushTime, ValveEvent.closeV [p.snd]]) ++
          [ValveEvent.closeV [inputInlet]]
      ∧ (chosen.map Prod.fst).Pairwise (· < ·)
      ∧ (∀ p ∈ chosen, p.snd ∈ vacantInlets ∧ inletDist inputInlet p.snd = p.fst)
      ∧ (∀ v ∈ vacantInlets, ∃ p ∈ chosen, p.fst = inletDist inputInlet v) := by
  have hcont : allInputs.contains inputInlet = true := by simpa using hin
  have hbuild := buildVacantDict_ok ((allInputs.findIdx (fun s => s == inputInlet) : Int))
    vacantInlets [] hvac
  rw [flushInletTree, inputIndexLookup, if_pos hcont, except_bind_ok, hbuild,
    except_bind_ok] at htr
  have htrace := (Except.ok.inj htr).symm
  have hkeys_nodup :
      ((vacantFold ((allInputs.findIdx (fun s => s == inputInlet) : Int)) vacantInlets []).map
        Prod.fst).Nodup :=
    vacantFold_nodup _ vacantInlets [] (by simp)
  have hall : ∀ d ∈ List.insertionSort (· ≤ ·)
      ((vacantFold ((allInputs.findIdx (fun s => s == inputInlet) : Int)) vacantInlets []).map
        Prod.fst),
      ((vacantFold ((allInputs.findIdx (fun s => s == inputInlet) : Int)) vacantInlets
        []).lookup d).isSome := by
    intro d hd
    have hdm := (List.perm_insertionSort (· ≤ ·) _).mem_iff.mp hd
    rw [List.lookup_isSome_iff]
    obtain ⟨p, hp, hfst⟩ := List.mem_map.mp hdm
    exact ⟨p, hp, by simp [hfst]⟩
  have hmapfst :
      (flushPairs (vacantFold ((allInputs.findIdx (fun s => s == inputInlet) : Int))
        vacantInlets [])).map Prod.fst =
      List.insertionSort (· ≤ ·)
        ((vacantFold ((allInputs.findIdx (fun s => s == inputInlet) : Int)) vacantInlets
          []).map Prod.fst) := by
    rw [flushPairs]
    exact filterMap_lookup_keys _ _ hall
  refine ⟨flushPairs (vacantFold ((allInputs.findIdx (fun s => s == inputInlet) : Int))
    vacantInlets []), htrace, ?_, ?_, ?_⟩
  · rw [hmapfst]
    have hsorted := List.sorted_insertionSort (· ≤ ·)
      ((vacantFold ((allInputs.findIdx (fun s => s == inputInlet) : Int)) vacantInlets
        []).map Prod.fst)
    have hnodup := ((List.perm_insertionSort (· ≤ ·) _).nodup_iff).mpr hkeys_nodup
    exact hsorted.lt_of_le hnodup
  · intro p hp
    have hpm := flushPairs_mem _ p hp
    rcases vacantFold_mem _ vacantInlets [] p hpm with h | ⟨hv, hd⟩
    · simp at h
    · refine ⟨hv, ?_⟩
      simp only [inletDist]
      exact hd.symm
  · intro v hv
    have hcov := vacantFold_covers ((allInputs.findIdx (fun s => s == inputInlet) : Int))
      vacantInlets [] v hv
    have hsortmem := (List.perm_insertionSort (· ≤ ·) _).mem_iff.mpr hcov
    rw [← hmapfst] at hsortmem
    obtain ⟨p, hp, hfst⟩ := List.mem_map.mp hsortmem
    refine ⟨p, hp, ?_⟩
    simp only [inletDist]
    exact hfst

/-- C5 witness: a single vacant inlet at distance 3 from the active input
is flushed between the opening and closing of the active input. -/
theorem flushInletTree_characterization_witness :
    ∃ chosen : List (Nat × String),
      [ValveEvent.closeV (allInputs ++ ["in"]), ValveEvent.openV ["ext1"],
        ValveEvent.openV ["hep"], ValveEvent.sleep 7, ValveEvent.closeV ["hep"],
        ValveEvent.closeV ["ext1"]] =
        [ValveEvent.closeV (allInputs ++ ["in"]), ValveEvent.openV ["ext1"]] ++
          chosen.flatMap (fun p =>
            [ValveEvent.openV [p.snd], ValveEvent.sleep 7, ValveEvent.closeV [p.snd]]) ++
          [ValveEvent.closeV ["ext1"]]
      ∧ (chosen.map Prod.fst).Pairwise (· < ·)
      ∧ (∀ p ∈ chosen, p.snd ∈ ["hep"] ∧ inletDist "ext1" p.snd = p.fst)
      ∧ (∀ v ∈ ["hep"], ∃ p ∈ chosen, p.fst = inletDist "ext1" v) :=
  flushInletTree_characterization ["d1"] "ext1" ["hep"] 7 (by decide) (by decide)
    [ValveEvent.closeV (allInputs ++ ["in"]), ValveEvent.openV ["ext1"],
      ValveEvent.openV ["hep"], ValveEvent.sleep 7, ValveEvent.closeV ["hep"],
      ValveEvent.closeV ["ext1"]] rfl
